import Mathlib

/-!
Verification of the LLN-API order/queue core.

The Go handlers are embedded shallowly: the Mongo `orders` collection is a
`List Order`; `FindOne` is `List.find?` (first match), `UpdateOne` is
`updateFirst` (patch the first matching document); random tokens, uploaded
files and timestamps become explicit parameters.  Calendar days are modelled
as a `Nat` day index stored in `queueEnteredAt` (the Go code filters
`queue_entered_at` by the current day's range).  HTTP 400/404/500 responses
become an `Err` value; a command that responds with an error performs no
database write in the source, so the embedding returns `Except Err` with the
new database only on success.
-/

namespace LLN

/-- Image stored on the CDN (public id and URL), from `models.Image`. -/
structure Image where
  publicID : String
  url : String
deriving DecidableEq, Repr

/-- Order status constants from `models` (loose strings in the source). -/
def OrderStatusPending : String := "pending"

/-- Order status constant `paid`. -/
def OrderStatusPaid : String := "paid"

/-- Order status constant `confirmed`. -/
def OrderStatusConfirmed : String := "confirmed"

/-- Order status constant `queued`. -/
def OrderStatusQueued : String := "queued"

/-- Order status constant `loading`. -/
def OrderStatusLoading : String := "loading"

/-- Order status constant `completed`. -/
def OrderStatusCompleted : String := "completed"

/-- Order status constant `cancelled`. -/
def OrderStatusCancelled : String := "cancelled"

/-- Payment status constant `pending`. -/
def PaymentStatusPending : String := "pending"

/-- Payment status constant `verified`. -/
def PaymentStatusVerified : String := "verified"

/-- Payment status constant `rejected`. -/
def PaymentStatusRejected : String := "rejected"

/-- Queue slot duration in minutes, from `models.QueueDurationMinutes`. -/
def QueueDurationMinutes : Nat := 30

/-- The fields of `models.Order` that the order/payment/queue commands read
or write.  Timestamps are `Nat` instants (`Option Nat` when nullable),
`queueEnteredAt` stores the day index of queue entry. -/
structure Order where
  id : Nat := 0
  status : String := OrderStatusPending
  paymentStatus : String := PaymentStatusPending
  paymentProof : Option Image := none
  paymentUploadedAt : Option Nat := none
  paymentVerifiedAt : Option Nat := none
  paymentVerifiedBy : String := ""
  paymentRejectedAt : Option Nat := none
  paymentRejectedBy : String := ""
  paymentRejectReason : String := ""
  invoiceToken : String := ""
  driverName : String := ""
  driverPhone : String := ""
  vehiclePlate : String := ""
  driverFilledAt : Option Nat := none
  queueNumber : Nat := 0
  queueToken : String := ""
  queueBarcode : String := ""
  queueQRCode : String := ""
  queueEnteredAt : Option Nat := none
  estimatedTime : Nat := 0
  queueCalledAt : Option Nat := none
  loadingAt : Option Nat := none
  loadingStartedAt : Option Nat := none
  completedAt : Option Nat := none
  updatedAt : Nat := 0
deriving DecidableEq, Repr

/-- Error responses used by the handlers (`response.BadRequest`,
`response.NotFound`, `response.Error(500,...)`). -/
inductive Err where
  | badRequest : String → Err
  | notFound : String → Err
  | serverError : String → Err
deriving DecidableEq, Repr

/-- Mongo `UpdateOne`: patch the first document satisfying the filter,
leave the rest unchanged (no-op when nothing matches). -/
def updateFirst (db : List Order) (p : Order → Bool) (f : Order → Order) :
    List Order :=
  match db with
  | [] => []
  | o :: rest => if p o then f o :: rest else o :: updateFirst rest p f

/-- Number of orders with `status = loading`
(`CountDocuments(status: loading)` in `CallNext`). -/
def loadingCount (db : List Order) : Nat :=
  (db.filter (fun o => o.status == OrderStatusLoading)).length

/-- Orders whose `queue_entered_at` falls on the given day
(the `queueFilter` range query in `Scan`). -/
def todayFilter (db : List Order) (today : Nat) : List Order :=
  db.filter (fun o => o.queueEnteredAt == some today)

/-- The `maxQueue` loop of `Scan`: fold `max` of `queue_number` over all of
today's queue entries, starting from 0. -/
def maxQueueToday (db : List Order) (today : Nat) : Nat :=
  (todayFilter db today).foldl (fun m o => max m o.queueNumber) 0

/-- The patch `Scan` writes on the matched order. -/
def scanPatch (qn : Nat) (tok : String) (today now : Nat) (p : Order) : Order :=
  { p with queueNumber := qn, queueToken := tok, queueBarcode := "",
           queueEnteredAt := some today,
           estimatedTime := now + (qn - 1) * QueueDurationMinutes,
           status := OrderStatusQueued, updatedAt := now }

/-- `QueueHandler.Scan` (queue.go): look up the order by `queue_barcode`,
require status `confirmed` and complete driver data, assign queue number
`max(today) + 1`, clear the barcode and set status `queued`.  Returns the
updated database and the assigned queue number.  `tok` stands for the
random `generateQueueToken()` result. -/
def scan (db : List Order) (barcode tok : String) (today now : Nat) :
    Except Err (List Order × Nat) :=
  if barcode = "" then .error (.badRequest "Barcode is required")
  else
    match db.find? (fun o => o.queueBarcode == barcode) with
    | none => .error (.notFound "Invalid barcode or order not found")
    | some o =>
      if o.status ≠ OrderStatusConfirmed then
        .error (.badRequest "Order is not ready for queue")
      else if o.driverName = "" || o.driverPhone = "" || o.vehiclePlate = "" then
        .error (.badRequest "Driver data is incomplete")
      else
        let qn := maxQueueToday db today + 1
        .ok (updateFirst db (fun p => p.id == o.id) (scanPatch qn tok today now), qn)

/-- First Queued order under Mongo's `queue_number` ascending sort:
minimum of `queue_number`, earliest document wins ties. -/
def minByQueueNumber : List Order → Option Order
  | [] => none
  | o :: rest =>
    match minByQueueNumber rest with
    | none => some o
    | some m => if o.queueNumber ≤ m.queueNumber then some o else some m

/-- `FindOne(status: queued, sort: queue_number asc)` in `CallNext`. -/
def findNextQueued (db : List Order) : Option Order :=
  minByQueueNumber (db.filter (fun o => o.status == OrderStatusQueued))

/-- The patch `CallNext` writes on the selected order. -/
def callNextPatch (now : Nat) (p : Order) : Order :=
  { p with status := OrderStatusLoading, loadingStartedAt := some now,
           queueCalledAt := some now, updatedAt := now }

/-- `QueueHandler.CallNext` (queue.go): refuse when any order is `loading`,
otherwise take the Queued order with the smallest `queue_number`, set it to
`loading`, and return the re-fetched order. -/
def callNext (db : List Order) (now : Nat) : Except Err (List Order × Order) :=
  if loadingCount db > 0 then
    .error (.badRequest "There is already an order being loaded")
  else
    match findNextQueued db with
    | none => .error (.notFound "No orders in queue")
    | some o =>
      let db' := updateFirst db (fun p => p.id == o.id) (callNextPatch now)
      .ok (db', (db'.find? (fun p => p.id == o.id)).getD (callNextPatch now o))

/-- `OrderHandler.CallQueue` (order.go): look the order up by id, require
only that its own status is `queued`, then set it to `loading`.  There is
no check that the bay is free. -/
def callQueue (db : List Order) (id now : Nat) : Except Err (List Order) :=
  match db.find? (fun o => o.id == id) with
  | none => .error (.notFound "Order not found")
  | some o =>
    if o.status ≠ OrderStatusQueued then
      .error (.badRequest "Order is not in queue")
    else
      .ok (updateFirst db (fun p => p.id == id) (fun p =>
        { p with status := OrderStatusLoading, loadingAt := some now,
                 updatedAt := now }))

/-- `OrderHandler.Update` (order.go): set `updated_at`, and overwrite
`status` with whatever non-empty string the request carries; no transition
validation of any kind. -/
def orderUpdate (db : List Order) (id : Nat) (reqStatus : String) (now : Nat) :
    Except Err (List Order) :=
  if db.find? (fun o => o.id == id) = none then
    .error (.notFound "Order not found")
  else if reqStatus = "" then
    .ok (updateFirst db (fun o => o.id == id) (fun o => { o with updatedAt := now }))
  else
    .ok (updateFirst db (fun o => o.id == id) (fun o =>
      { o with status := reqStatus, updatedAt := now }))

/-- `OrderHandler.Delete` (order.go): set `status = cancelled` on the order
with the given id, whatever its current status. -/
def orderDelete (db : List Order) (id now : Nat) : Except Err (List Order) :=
  if db.find? (fun o => o.id == id) = none then
    .error (.notFound "Order not found")
  else
    .ok (updateFirst db (fun o => o.id == id) (fun o =>
      { o with status := OrderStatusCancelled, updatedAt := now }))

/-- `OrderHandler.FinishLoading` (order.go): require status `loading`,
then set `completed`. -/
def finishLoading (db : List Order) (id now : Nat) : Except Err (List Order) :=
  match db.find? (fun o => o.id == id) with
  | none => .error (.notFound "Order not found")
  | some o =>
    if o.status ≠ OrderStatusLoading then
      .error (.badRequest "Order is not in loading status")
    else
      .ok (updateFirst db (fun p => p.id == id) (fun p =>
        { p with status := OrderStatusCompleted, completedAt := some now,
                 updatedAt := now }))

/-- The update document `PaymentHandler.Verify` writes. -/
def verifyPatch (userID : String) (now : Nat) (p : Order) : Order :=
  { p with paymentStatus := PaymentStatusVerified,
           paymentVerifiedAt := some now, paymentVerifiedBy := userID,
           status := OrderStatusConfirmed, updatedAt := now }

/-- `PaymentHandler.Verify` (payment.go): require an uploaded proof and
`payment_status = pending`; set `payment_status = verified` and
`status = confirmed` with verifier metadata. -/
def paymentVerify (db : List Order) (id : Nat) (userID : String) (now : Nat) :
    Except Err (List Order) :=
  match db.find? (fun o => o.id == id) with
  | none => .error (.notFound "Order not found")
  | some o =>
    if o.paymentProof = none then
      .error (.badRequest "No payment proof uploaded")
    else if o.paymentStatus ≠ PaymentStatusPending then
      .error (.badRequest "Payment is not in pending status")
    else
      .ok (updateFirst db (fun p => p.id == id) (verifyPatch userID now))

/-- `PaymentHandler.Reject` (payment.go): require `payment_status = pending`;
record rejection metadata, leaving `status` untouched. -/
def paymentReject (db : List Order) (id : Nat) (userID reason : String)
    (now : Nat) : Except Err (List Order) :=
  match db.find? (fun o => o.id == id) with
  | none => .error (.notFound "Order not found")
  | some o =>
    if o.paymentStatus ≠ PaymentStatusPending then
      .error (.badRequest "Payment is not in pending status")
    else
      .ok (updateFirst db (fun p => p.id == id) (fun p =>
        { p with paymentStatus := PaymentStatusRejected,
                 paymentRejectedAt := some now, paymentRejectedBy := userID,
                 paymentRejectReason := reason, updatedAt := now }))

/-- `PaymentHandler.UploadProof` (payment.go): look up by invoice token,
require `status = pending`, attach the proof and set `status = paid`.
The uploaded file is abstracted into the `proof` parameter. -/
def uploadProof (db : List Order) (token : String) (proof : Image)
    (now : Nat) : Except Err (List Order) :=
  if token = "" then .error (.badRequest "Token is required")
  else
    match db.find? (fun o => o.invoiceToken == token) with
    | none => .error (.notFound "Order not found")
    | some o =>
      if o.status ≠ OrderStatusPending then
        .error (.badRequest "Order is not in pending status")
      else
        .ok (updateFirst db (fun p => p.invoiceToken == token) (fun p =>
          { p with paymentProof := some proof, paymentUploadedAt := some now,
                   status := OrderStatusPaid, updatedAt := now }))

/-- `ClientHandler.UploadPayment` (client handler): same upload flow keyed
by invoice token, with an extra (unreachable-after-verify) check that the
payment is not already verified. -/
def clientUploadPayment (db : List Order) (token : String) (proof : Image)
    (now : Nat) : Except Err (List Order) :=
  if token = "" then .error (.badRequest "Token is required")
  else
    match db.find? (fun o => o.invoiceToken == token) with
    | none => .error (.notFound "Order not found")
    | some o =>
      if o.status ≠ OrderStatusPending then
        .error (.badRequest "Cannot upload payment for this order status")
      else if o.paymentStatus == PaymentStatusVerified then
        .error (.badRequest "Payment already verified")
      else
        .ok (updateFirst db (fun p => p.invoiceToken == token) (fun p =>
          { p with paymentProof := some proof, paymentUploadedAt := some now,
                   status := OrderStatusPaid, updatedAt := now }))

/-- Driver data carried by a submit-driver request. -/
structure DriverReq where
  driverName : String
  driverPhone : String
  vehiclePlate : String
deriving DecidableEq, Repr

/-- The patch `ClientHandler.SubmitDriver` writes. -/
def driverPatch (req : DriverReq) (barcode qr : String) (now : Nat)
    (p : Order) : Order :=
  { p with driverName := req.driverName, driverPhone := req.driverPhone,
           vehiclePlate := req.vehiclePlate, driverFilledAt := some now,
           queueBarcode := barcode, queueQRCode := qr, updatedAt := now }

/-- `ClientHandler.SubmitDriver` (client handler): look up by invoice token
and require only `payment_status = verified` — the order status is never
inspected.  Overwrites the driver fields and stores a fresh queue barcode
and QR code (the random barcode and its rendered QR are the `barcode` and
`qr` parameters). -/
def clientSubmitDriver (db : List Order) (token : String) (req : DriverReq)
    (barcode qr : String) (now : Nat) : Except Err (List Order) :=
  if token = "" then .error (.badRequest "Token is required")
  else if req.driverName = "" || req.driverPhone = "" || req.vehiclePlate = "" then
    .error (.badRequest "Driver name, phone, and vehicle plate are required")
  else
    match db.find? (fun o => o.invoiceToken == token) with
    | none => .error (.notFound "Order not found")
    | some o =>
      if o.paymentStatus ≠ PaymentStatusVerified then
        .error (.badRequest "Payment must be verified first")
      else
        .ok (updateFirst db (fun p => p.invoiceToken == token)
          (driverPatch req barcode qr now))

/-- Response of `QueueHandler.GetEstimate`: queue depth and the wait it
reports (in minutes; the source formats it as a string). -/
structure EstimateResp where
  queueCount : Nat
  estimatedWaitMinutes : Nat
  loading : Bool
deriving DecidableEq, Repr

/-- `QueueHandler.GetEstimate` (queue.go): counts Queued orders and reports
`queueCount * QueueDurationMinutes` whether or not an order is loading
(both branches of the source's `if` compute the same expression). -/
def getEstimate (db : List Order) : EstimateResp :=
  let isLoading := (db.find? (fun o => o.status == OrderStatusLoading)).isSome
  let queueCount := (db.filter (fun o => o.status == OrderStatusQueued)).length
  { queueCount := queueCount,
    estimatedWaitMinutes :=
      if isLoading then queueCount * QueueDurationMinutes
      else queueCount * QueueDurationMinutes,
    loading := isLoading }

/-- Response of `ClientHandler.GetQueueStatus` (wait in minutes; `none`
when the order is not queued, where the source leaves the string empty). -/
structure QueueStatusResp where
  status : String
  queueNumber : Nat
  estimatedWaitMinutes : Option Nat
  ordersAhead : Nat
  currentLoading : Bool
  isLoading : Bool
deriving DecidableEq, Repr

/-- `ClientHandler.GetQueueStatus`: for a Queued order, count the
Queued/Loading orders with a strictly smaller `queue_number` and report
that count times the slot duration. -/
def getQueueStatus (db : List Order) (token : String) :
    Except Err QueueStatusResp :=
  if token = "" then .error (.badRequest "Token is required")
  else
    match db.find? (fun o => o.invoiceToken == token) with
    | none => .error (.notFound "Order not found")
    | some o =>
      let ahead :=
        if o.status == OrderStatusQueued then
          (db.filter (fun q =>
            (q.status == OrderStatusQueued || q.status == OrderStatusLoading)
              && decide (q.queueNumber < o.queueNumber))).length
        else 0
      .ok { status := o.status, queueNumber := o.queueNumber,
            estimatedWaitMinutes :=
              if o.status == OrderStatusQueued then
                some (ahead * QueueDurationMinutes)
              else none,
            ordersAhead := ahead,
            currentLoading := o.status == OrderStatusLoading,
            isLoading :=
              (db.find? (fun q => q.status == OrderStatusLoading)).isSome }

/-- Modelled from the spec: `orders_ahead(order)` counts Queued/Loading
orders with a `queue_number` strictly smaller than the order's (§4.4).
Stated from the spec's words to compare against the handlers. -/
def ordersAhead (db : List Order) (o : Order) : Nat :=
  (db.filter (fun q =>
    (q.status == OrderStatusQueued || q.status == OrderStatusLoading)
      && decide (q.queueNumber < o.queueNumber))).length

/-- Run a sequence of `Scan` requests (barcode and generated token pairs)
on one day, collecting the queue numbers of the successful scans; a failed
scan writes nothing and the sequence continues. -/
def scanSeq (db : List Order) (args : List (String × String))
    (today now : Nat) : List Order × List Nat :=
  match args with
  | [] => (db, [])
  | (b, t) :: rest =>
    match scan db b t today now with
    | .ok (db', n) =>
      let r := scanSeq db' rest today now
      (r.1, n :: r.2)
    | .error _ => scanSeq db rest today now

/-! ## Shared lemmas about the Mongo primitives -/

/-- A successful `find?` splits the list at the first match. -/
theorem find?_split {db : List Order} {p : Order → Bool} {o : Order}
    (h : db.find? p = some o) :
    ∃ l₁ l₂, db = l₁ ++ o :: l₂ ∧ ∀ x ∈ l₁, p x = false := by
  induction db with
  | nil => simp at h
  | cons a rest ih =>
    by_cases hp : p a
    · rw [List.find?_cons_of_pos _ hp] at h
      injection h with h
      subst h
      exact ⟨[], rest, rfl, by simp⟩
    · rw [List.find?_cons_of_neg _ hp] at h
      obtain ⟨l₁, l₂, rfl, hl⟩ := ih h
      refine ⟨a :: l₁, l₂, rfl, ?_⟩
      intro x hx
      rcases List.mem_cons.1 hx with rfl | hx
      · simpa using hp
      · exact hl x hx

/-- `updateFirst` rewrites exactly the first match when the prefix has none. -/
theorem updateFirst_append_of_not {l₁ : List Order} {o : Order}
    {l₂ : List Order} {p : Order → Bool} {f : Order → Order}
    (h1 : ∀ x ∈ l₁, p x = false) (h2 : p o = true) :
    updateFirst (l₁ ++ o :: l₂) p f = l₁ ++ f o :: l₂ := by
  induction l₁ with
  | nil => simp [updateFirst, h2]
  | cons a rest ih =>
    have ha : p a = false := h1 a (by simp)
    simp only [List.cons_append, updateFirst, ha, Bool.false_eq_true,
      if_false, List.cons.injEq, true_and]
    exact ih (fun x hx => h1 x (by simp [hx]))

/-- `updateFirst` keeps the id column when the patch keeps each id. -/
theorem updateFirst_map_id {db : List Order} {p : Order → Bool}
    {f : Order → Order} (hf : ∀ x, (f x).id = x.id) :
    (updateFirst db p f).map Order.id = db.map Order.id := by
  induction db with
  | nil => rfl
  | cons a rest ih =>
    by_cases hp : p a <;> simp [updateFirst, hp, hf, ih]

/-- Re-fetching with the same filter after `updateFirst` returns the patched
document, provided the patch still satisfies the filter. -/
theorem find?_updateFirst_same {db : List Order} {p : Order → Bool}
    {f : Order → Order} {o : Order}
    (h : db.find? p = some o) (hf : p (f o) = true) :
    (updateFirst db p f).find? p = some (f o) := by
  induction db with
  | nil => simp at h
  | cons a rest ih =>
    by_cases hp : p a
    · rw [List.find?_cons_of_pos _ hp] at h
      injection h with h
      subst h
      simp [updateFirst, hp, List.find?_cons_of_pos _ hf]
    · rw [List.find?_cons_of_neg _ hp] at h
      simp only [updateFirst, hp, Bool.false_eq_true, if_false]
      rw [List.find?_cons_of_neg _ hp]
      exact ih h

/-- Maximum `queue_number` over a list of orders (0 for the empty list). -/
def maxQN (l : List Order) : Nat :=
  l.foldl (fun m o => max m o.queueNumber) 0

theorem maxQueueToday_eq_maxQN (db : List Order) (today : Nat) :
    maxQueueToday db today = maxQN (todayFilter db today) := rfl

theorem maxQN_foldl (l : List Order) (a : Nat) :
    l.foldl (fun m o => max m o.queueNumber) a = max a (maxQN l) := by
  induction l generalizing a with
  | nil => simp [maxQN]
  | cons o rest ih =>
    show rest.foldl _ (max a o.queueNumber) = max a (maxQN (o :: rest))
    have h1 : maxQN (o :: rest) = max o.queueNumber (maxQN rest) := by
      show rest.foldl _ (max 0 o.queueNumber) = _
      rw [ih, Nat.zero_max]
    rw [ih, h1, Nat.max_assoc]

theorem maxQN_cons (o : Order) (l : List Order) :
    maxQN (o :: l) = max o.queueNumber (maxQN l) := by
  show l.foldl _ (max 0 o.queueNumber) = _
  rw [maxQN_foldl, Nat.zero_max]

theorem maxQN_append (l₁ l₂ : List Order) :
    maxQN (l₁ ++ l₂) = max (maxQN l₁) (maxQN l₂) := by
  show (l₁ ++ l₂).foldl _ 0 = _
  rw [List.foldl_append, maxQN_foldl]
  rfl

theorem le_maxQN {o : Order} {l : List Order} (h : o ∈ l) :
    o.queueNumber ≤ maxQN l := by
  induction l with
  | nil => simp at h
  | cons a rest ih =>
    rw [maxQN_cons]
    rcases List.mem_cons.1 h with rfl | h
    · exact Nat.le_max_left _ _
    · exact Nat.le_trans (ih h) (Nat.le_max_right _ _)

theorem todayFilter_append (l₁ l₂ : List Order) (today : Nat) :
    todayFilter (l₁ ++ l₂) today = todayFilter l₁ today ++ todayFilter l₂ today :=
  List.filter_append _ _

/-! ## C2: per-day queue numbers form a contiguous run -/

/-- Inversion of a successful `Scan`. -/
theorem scan_ok_inv {db db' : List Order} {b tok : String} {today now n : Nat}
    (h : scan db b tok today now = .ok (db', n)) :
    b ≠ "" ∧ ∃ o, db.find? (fun x => x.queueBarcode == b) = some o ∧
      o.status = OrderStatusConfirmed ∧
      n = maxQueueToday db today + 1 ∧
      db' = updateFirst db (fun p => p.id == o.id) (scanPatch n tok today now) := by
  unfold scan at h
  by_cases hb : b = ""
  · simp [hb] at h
  · simp only [hb, if_false] at h
    cases hfind : db.find? (fun x => x.queueBarcode == b) with
    | none => rw [hfind] at h; simp at h
    | some o =>
      rw [hfind] at h
      by_cases hs : o.status = OrderStatusConfirmed
      · simp only [hs, ne_eq, not_true_eq_false, if_false] at h
        split at h
        · simp at h
        · injection h with h
          injection h with h1 h2
          exact ⟨hb, o, rfl, hs, h2.symm, by rw [← h2, h1]⟩
      · simp [hs] at h

/-- One successful `Scan` assigns `k + 1` and raises today's maximum to
`k + 1`, keeping ids intact. -/
theorem scan_ok_step {db db' : List Order} {b tok : String}
    {today now n k : Nat}
    (hnd : (db.map Order.id).Nodup)
    (hmax : maxQueueToday db today = k)
    (h : scan db b tok today now = .ok (db', n)) :
    n = k + 1 ∧ maxQueueToday db' today = k + 1 ∧
      (db'.map Order.id).Nodup := by
  obtain ⟨-, o, hfind, -, hn, hdb'⟩ := scan_ok_inv h
  rw [hmax] at hn
  subst hn
  have hmem : o ∈ db := List.mem_of_find?_eq_some hfind
  obtain ⟨l₁, l₂, rfl, -⟩ := List.append_of_mem hmem
  have hids : Order.id o ∉ l₁.map Order.id ∧ Order.id o ∉ l₂.map Order.id := by
    rw [List.map_append, List.map_cons, List.nodup_append] at hnd
    constructor
    · intro hc
      exact hnd.2.2 hc (by simp)
    · exact (List.nodup_cons.1 hnd.2.1).1
  have hpre : ∀ x ∈ l₁, (x.id == o.id) = false := by
    intro x hx
    simp only [beq_eq_false_iff_ne, ne_eq]
    intro he
    exact hids.1 (by rw [← he]; exact List.mem_map_of_mem _ hx)
  have hupd : updateFirst (l₁ ++ o :: l₂) (fun p => p.id == o.id)
      (scanPatch (k + 1) tok today now) =
      l₁ ++ scanPatch (k + 1) tok today now o :: l₂ :=
    updateFirst_append_of_not hpre (by simp)
  rw [hupd] at hdb'
  subst hdb'
  refine ⟨rfl, ?_, ?_⟩
  · have hle₁ : maxQN (todayFilter l₁ today) ≤ k := by
      rw [maxQueueToday_eq_maxQN, todayFilter_append, maxQN_append] at hmax
      calc maxQN (todayFilter l₁ today)
          ≤ max (maxQN (todayFilter l₁ today))
              (maxQN (todayFilter (o :: l₂) today)) := Nat.le_max_left _ _
        _ = k := hmax
    have hle₂ : maxQN (todayFilter l₂ today) ≤ k := by
      rw [maxQueueToday_eq_maxQN, todayFilter_append, maxQN_append] at hmax
      have h2 : maxQN (todayFilter l₂ today) ≤
          maxQN (todayFilter (o :: l₂) today) := by
        unfold todayFilter
        rw [List.filter_cons]
        split
        · rw [maxQN_cons]
          exact Nat.le_max_right _ _
        · exact Nat.le_refl _
      calc maxQN (todayFilter l₂ today)
          ≤ maxQN (todayFilter (o :: l₂) today) := h2
        _ ≤ max (maxQN (todayFilter l₁ today))
              (maxQN (todayFilter (o :: l₂) today)) := Nat.le_max_right _ _
        _ = k := hmax
    rw [maxQueueToday_eq_maxQN, todayFilter_append]
    have hpatch : todayFilter (scanPatch (k + 1) tok today now o :: l₂) today =
        scanPatch (k + 1) tok today now o :: todayFilter l₂ today := by
      unfold todayFilter
      rw [List.filter_cons]
      simp [scanPatch]
    rw [hpatch, maxQN_append, maxQN_cons]
    have hqn : (scanPatch (k + 1) tok today now o).queueNumber = k + 1 := rfl
    rw [hqn, Nat.max_eq_left (Nat.le_succ_of_le hle₂),
      Nat.max_eq_right (Nat.le_succ_of_le hle₁)]
  · have hid : (scanPatch (k + 1) tok today now o).id = o.id := rfl
    simp only [List.map_append, List.map_cons, hid]
    simpa only [List.map_append, List.map_cons] using hnd

/-- Accumulated form of the C2 claim: starting from today's maximum `k`,
the successful scans return `k+1, k+2, …` in order. -/
theorem scanSeq_nums (args : List (String × String)) :
    ∀ (db : List Order) (k today now : Nat),
      (db.map Order.id).Nodup → maxQueueToday db today = k →
      (scanSeq db args today now).2 =
        List.range' (k + 1) (scanSeq db args today now).2.length := by
  induction args with
  | nil => intro db k today now _ _; simp [scanSeq]
  | cons a rest ih =>
    intro db k today now hnd hmax
    obtain ⟨b, t⟩ := a
    cases hscan : scan db b t today now with
    | error e =>
      simpa [scanSeq, hscan] using ih db k today now hnd hmax
    | ok r =>
      obtain ⟨db', n⟩ := r
      obtain ⟨hn, hmax', hnd'⟩ := scan_ok_step hnd hmax hscan
      subst hn
      have hr := ih db' (k + 1) today now hnd' hmax'
      simp only [scanSeq, hscan]
      rw [List.length_cons, List.range'_succ]
      exact congrArg _ hr

/-- C2: for every sequence of scan requests on one fresh calendar day
(unique ids, no order yet entered today), the queue numbers assigned by the
successful scans are exactly `1, 2, …, N`: unique, starting at 1,
contiguous, with no duplicate and no gap. -/
theorem scan_day_numbers_contiguous (db : List Order)
    (args : List (String × String)) (today now : Nat)
    (hnd : (db.map Order.id).Nodup)
    (hfresh : todayFilter db today = []) :
    (scanSeq db args today now).2 =
      List.range' 1 (scanSeq db args today now).2.length :=
  scanSeq_nums args db 0 today now hnd
    (by rw [maxQueueToday_eq_maxQN, hfresh]; rfl)

/-- Concrete day-start database for the C2 witness: two confirmed orders
with complete driver data and distinct barcodes. -/
def dbC2 : List Order :=
  [ { id := 1, status := OrderStatusConfirmed, driverName := "a",
      driverPhone := "b", vehiclePlate := "c", queueBarcode := "bc1" },
    { id := 2, status := OrderStatusConfirmed, driverName := "d",
      driverPhone := "e", vehiclePlate := "f", queueBarcode := "bc2" } ]

/-- Scan requests for the C2 witness: two valid barcodes with an unknown
barcode in between. -/
def argsC2 : List (String × String) := [("bc1", "t1"), ("zz", "t"), ("bc2", "t2")]

/-- Witness for C2 at a concrete database and scan sequence. -/
theorem scan_day_numbers_contiguous_witness :
    (dbC2.map Order.id).Nodup ∧ todayFilter dbC2 7 = [] ∧
      (scanSeq dbC2 argsC2 7 5).2 =
        List.range' 1 (scanSeq dbC2 argsC2 7 5).2.length :=
  ⟨by decide, by decide,
    scan_day_numbers_contiguous dbC2 argsC2 7 5 (by decide) (by decide)⟩

/-! ## Lemmas about `loadingCount`, the queue minimum and `CallNext` -/

theorem loadingCount_append (l₁ l₂ : List Order) :
    loadingCount (l₁ ++ l₂) = loadingCount l₁ + loadingCount l₂ := by
  simp [loadingCount, List.filter_append]

theorem loadingCount_cons (o : Order) (l : List Order) :
    loadingCount (o :: l) =
      (if o.status == OrderStatusLoading then 1 else 0) + loadingCount l := by
  simp only [loadingCount, List.filter_cons]
  split
  · rw [List.length_cons]
    omega
  · omega

theorem minByQueueNumber_mem {l : List Order} {m : Order}
    (h : minByQueueNumber l = some m) : m ∈ l := by
  induction l generalizing m with
  | nil => simp [minByQueueNumber] at h
  | cons a rest ih =>
    rw [minByQueueNumber] at h
    cases hr : minByQueueNumber rest with
    | none =>
      rw [hr] at h
      simp only [] at h
      injection h with h
      subst h
      exact List.mem_cons_self _ _
    | some v =>
      rw [hr] at h
      simp only [] at h
      split at h <;> (injection h with h; subst h)
      · exact List.mem_cons_self _ _
      · exact List.mem_cons_of_mem _ (ih hr)

theorem minByQueueNumber_le {l : List Order} {m : Order}
    (h : minByQueueNumber l = some m) :
    ∀ x ∈ l, m.queueNumber ≤ x.queueNumber := by
  induction l generalizing m with
  | nil => simp [minByQueueNumber] at h
  | cons a rest ih =>
    intro x hx
    rw [minByQueueNumber] at h
    cases hr : minByQueueNumber rest with
    | none =>
      rw [hr] at h
      simp only [] at h
      injection h with h
      subst h
      rcases List.mem_cons.1 hx with rfl | hx
      · exact Nat.le_refl _
      · exfalso
        have : rest = [] := by
          cases hrest : rest with
          | nil => rfl
          | cons b rest' =>
            rw [hrest] at hr
            rw [minByQueueNumber] at hr
            cases h' : minByQueueNumber rest' with
            | none => rw [h'] at hr; simp at hr
            | some v => rw [h'] at hr; simp only [] at hr; split at hr <;> simp at hr
        rw [this] at hx
        simp at hx
    | some v =>
      rw [hr] at h
      simp only [] at h
      rcases List.mem_cons.1 hx with rfl | hx
      · split at h <;> (injection h with h; subst h)
        · exact Nat.le_refl _
        · omega
      · have hv := ih hr x hx
        split at h <;> (injection h with h; subst h)
        · omega
        · exact hv

theorem minByQueueNumber_eq_none {l : List Order} :
    minByQueueNumber l = none ↔ l = [] := by
  cases l with
  | nil => simp [minByQueueNumber]
  | cons a rest =>
    simp only [List.cons_ne_nil, iff_false]
    intro h
    rw [minByQueueNumber] at h
    cases hr : minByQueueNumber rest with
    | none => rw [hr] at h; simp at h
    | some v =>
      rw [hr] at h
      simp only [] at h
      split at h <;> simp at h

theorem findNextQueued_status {db : List Order} {m : Order}
    (h : findNextQueued db = some m) :
    m ∈ db ∧ m.status = OrderStatusQueued := by
  have hmem := minByQueueNumber_mem h
  have hmemdb := List.mem_of_mem_filter hmem
  have hp := List.of_mem_filter hmem
  exact ⟨hmemdb, by simpa using hp⟩

theorem findNextQueued_min {db : List Order} {m : Order}
    (h : findNextQueued db = some m) :
    ∀ q ∈ db, q.status = OrderStatusQueued → m.queueNumber ≤ q.queueNumber := by
  intro q hq hqs
  exact minByQueueNumber_le h q (List.mem_filter.2 ⟨hq, by simpa using hqs⟩)

theorem findNextQueued_eq_none {db : List Order} :
    findNextQueued db = none ↔ ∀ o ∈ db, ¬o.status = OrderStatusQueued := by
  rw [findNextQueued, minByQueueNumber_eq_none, List.filter_eq_nil_iff]
  simp

/-- With distinct ids, an order splits the list at its (unique) position and
`updateFirst` on its id patches exactly that position. -/
theorem updateFirst_of_mem_nodup {db : List Order} {o : Order}
    (hnd : (db.map Order.id).Nodup) (hmem : o ∈ db) (f : Order → Order) :
    ∃ l₁ l₂, db = l₁ ++ o :: l₂ ∧ (∀ x ∈ l₁, (x.id == o.id) = false) ∧
      updateFirst db (fun p => p.id == o.id) f = l₁ ++ f o :: l₂ := by
  obtain ⟨l₁, l₂, rfl⟩ := List.append_of_mem hmem
  rw [List.map_append, List.map_cons, List.nodup_append] at hnd
  have hpre : ∀ x ∈ l₁, (x.id == o.id) = false := by
    intro x hx
    simp only [beq_eq_false_iff_ne, ne_eq]
    intro he
    have hin : o.id ∈ l₁.map Order.id := by
      rw [← he]
      exact List.mem_map_of_mem _ hx
    exact hnd.2.2 hin (by simp)
  exact ⟨l₁, l₂, rfl, hpre, updateFirst_append_of_not hpre (by simp)⟩

/-- Re-fetch by id after an in-place patch. -/
theorem find?_id_append {l₁ l₂ : List Order} {u : Order} {i : Nat}
    (hpre : ∀ x ∈ l₁, (x.id == i) = false) (hu : (u.id == i) = true) :
    (l₁ ++ u :: l₂).find? (fun p => p.id == i) = some u := by
  rw [List.find?_append]
  have h1 : l₁.find? (fun p => p.id == i) = none := by
    rw [List.find?_eq_none]
    intro x hx
    simp [hpre x hx]
  rw [h1, Option.none_or]
  exact List.find?_cons_of_pos l₂ hu

/-- Successful `CallNext` under distinct ids: the chosen minimum is patched
in place and returned. -/
theorem callNext_ok_decomp {db : List Order} {now : Nat} {m : Order}
    (hnd : (db.map Order.id).Nodup)
    (hload : ¬loadingCount db > 0)
    (hfind : findNextQueued db = some m) :
    ∃ l₁ l₂, db = l₁ ++ m :: l₂ ∧
      callNext db now =
        .ok (l₁ ++ callNextPatch now m :: l₂, callNextPatch now m) := by
  obtain ⟨hmem, hstat⟩ := findNextQueued_status hfind
  obtain ⟨l₁, l₂, hdb, hpre, hupd⟩ :=
    updateFirst_of_mem_nodup hnd hmem (callNextPatch now)
  refine ⟨l₁, l₂, hdb, ?_⟩
  unfold callNext
  rw [if_neg hload, hfind]
  simp only []
  rw [hupd]
  have hfetch : (l₁ ++ callNextPatch now m :: l₂).find?
      (fun p => p.id == m.id) = some (callNextPatch now m) :=
    find?_id_append hpre (by simp [callNextPatch])
  rw [hfetch]
  rfl

/-! ## C1: the at-most-one-Loading invariant -/

/-- Order already occupying the bay in the C1 counterexample. -/
def oC1A : Order := { id := 1, status := OrderStatusLoading }

/-- Queued order in the C1 counterexample. -/
def oC1B : Order := { id := 2, status := OrderStatusQueued, queueNumber := 1 }

/-- Database of the C1 counterexample: one Loading and one Queued order. -/
def dbC1 : List Order := [oC1A, oC1B]

/-- The second Loading order produced by the C1 counterexample run. -/
def oC1B' : Order :=
  { oC1B with status := OrderStatusLoading, loadingAt := some 5, updatedAt := 5 }

/-- C1 counterexample: `OrderHandler.CallQueue` checks only that its target
is Queued, so with one order already Loading it succeeds on a Queued order
and leaves two orders Loading at once. -/
theorem callQueue_breaks_single_loading :
    loadingCount dbC1 = 1 ∧
      callQueue dbC1 2 5 = .ok [oC1A, oC1B'] ∧
      loadingCount [oC1A, oC1B'] = 2 :=
  ⟨by decide, by rfl, by decide⟩

/-- C1 (amended): `QueueHandler.CallNext` preserves the at-most-one-Loading
invariant — it only succeeds from a bay-free state, leaves exactly one
order Loading, and an immediately repeated call with no intervening
`FinishLoading` fails with the bay-busy error.  (`OrderHandler.CallQueue`
does not preserve the invariant, see the counterexample.) -/
theorem callNext_preserves_single_loading {db db' : List Order} {w : Order}
    {now now₂ : Nat}
    (hnd : (db.map Order.id).Nodup)
    (hok : callNext db now = .ok (db', w)) :
    loadingCount db = 0 ∧ loadingCount db' = 1 ∧
      callNext db' now₂ =
        .error (.badRequest "There is already an order being loaded") := by
  have hload : ¬loadingCount db > 0 := by
    intro hl
    unfold callNext at hok
    rw [if_pos hl] at hok
    simp at hok
  have hload0 : loadingCount db = 0 := by omega
  cases hfind : findNextQueued db with
  | none =>
    unfold callNext at hok
    rw [if_neg hload, hfind] at hok
    simp at hok
  | some m =>
    obtain ⟨l₁, l₂, hdb, heq⟩ := callNext_ok_decomp hnd hload hfind
    rw [heq] at hok
    injection hok with hok
    injection hok with h1 h2
    subst h1
    have hstat := (findNextQueued_status hfind).2
    have hsplit : loadingCount db = loadingCount l₁ + loadingCount l₂ := by
      rw [hdb, loadingCount_append, loadingCount_cons, hstat]
      have hne : (OrderStatusQueued == OrderStatusLoading) = false := by decide
      rw [hne, if_neg (by simp)]
      omega
    have hone : loadingCount (l₁ ++ callNextPatch now m :: l₂) = 1 := by
      rw [loadingCount_append, loadingCount_cons]
      have hl : ((callNextPatch now m).status == OrderStatusLoading) = true := by
        simp [callNextPatch, OrderStatusLoading]
      rw [hl, if_pos rfl]
      omega
    refine ⟨hload0, hone, ?_⟩
    unfold callNext
    rw [if_pos (by omega)]

/-- Post-state of the C1 witness run. -/
def wC1 : Order :=
  { id := 3, status := OrderStatusLoading, queueNumber := 1,
    loadingStartedAt := some 4, queueCalledAt := some 4, updatedAt := 4 }

/-- Pre-state of the C1 witness run: a single Queued order. -/
def dbC1W : List Order := [{ id := 3, status := OrderStatusQueued, queueNumber := 1 }]

/-- Witness for the amended C1 theorem at a concrete database. -/
theorem callNext_preserves_single_loading_witness :
    ((dbC1W.map Order.id).Nodup ∧ callNext dbC1W 4 = .ok ([wC1], wC1)) ∧
      loadingCount dbC1W = 0 ∧ loadingCount [wC1] = 1 ∧
      callNext [wC1] 6 =
        .error (.badRequest "There is already an order being loaded") :=
  ⟨⟨by decide, by rfl⟩, callNext_preserves_single_loading (by decide) (by rfl)⟩

/-! ## C3: CallNext selection policy and failure modes -/

/-- C3: when an order is Loading, `CallNext` fails with the bay-busy error;
when the bay is free and nothing is Queued, it fails with the empty-queue
error; when the bay is free and a Queued order exists (ids distinct), it
picks a Queued order with the smallest `queue_number`, sets exactly that
order to Loading and returns it; the failures perform no write. -/
theorem callNext_cases (db : List Order) (now : Nat) :
    (0 < loadingCount db →
      callNext db now =
        .error (.badRequest "There is already an order being loaded")) ∧
    (loadingCount db = 0 → (∀ o ∈ db, ¬o.status = OrderStatusQueued) →
      callNext db now = .error (.notFound "No orders in queue")) ∧
    (loadingCount db = 0 → (db.map Order.id).Nodup →
      (∃ o ∈ db, o.status = OrderStatusQueued) →
      ∃ l₁ m l₂, db = l₁ ++ m :: l₂ ∧ m.status = OrderStatusQueued ∧
        (∀ q ∈ db, q.status = OrderStatusQueued →
          m.queueNumber ≤ q.queueNumber) ∧
        callNext db now =
          .ok (l₁ ++ callNextPatch now m :: l₂, callNextPatch now m)) := by
  refine ⟨?_, ?_, ?_⟩
  · intro h
    unfold callNext
    rw [if_pos h]
  · intro h0 hq
    unfold callNext
    rw [if_neg (by omega), findNextQueued_eq_none.2 hq]
  · intro h0 hnd hq
    cases hfind : findNextQueued db with
    | none =>
      obtain ⟨o, ho, hos⟩ := hq
      exact absurd hos (findNextQueued_eq_none.1 hfind o ho)
    | some m =>
      obtain ⟨l₁, l₂, hdb, heq⟩ := callNext_ok_decomp hnd (by omega) hfind
      exact ⟨l₁, m, l₂, hdb, (findNextQueued_status hfind).2,
        findNextQueued_min hfind, heq⟩

/-- First Queued order (larger number) of the C3 witness database. -/
def oC3a : Order := { id := 1, status := OrderStatusQueued, queueNumber := 2 }

/-- Second Queued order (smallest number) of the C3 witness database. -/
def oC3b : Order := { id := 2, status := OrderStatusQueued, queueNumber := 1 }

/-- Database of the C3 witness: two Queued orders, bay free. -/
def dbC3 : List Order := [oC3a, oC3b]

/-- Witness for C3 in the success case at a concrete database. -/
theorem callNext_cases_witness :
    loadingCount dbC3 = 0 ∧ (dbC3.map Order.id).Nodup ∧
      (∃ o ∈ dbC3, o.status = OrderStatusQueued) ∧
      (∃ l₁ m l₂, dbC3 = l₁ ++ m :: l₂ ∧ m.status = OrderStatusQueued ∧
        (∀ q ∈ dbC3, q.status = OrderStatusQueued →
          m.queueNumber ≤ q.queueNumber) ∧
        callNext dbC3 9 =
          .ok (l₁ ++ callNextPatch 9 m :: l₂, callNextPatch 9 m)) :=
  ⟨by decide, by decide, by decide,
    (callNext_cases dbC3 9).2.2 (by decide) (by decide) (by decide)⟩

/-! ## C4: invalid transitions and the generic status update -/

/-- Pending order for the C4 counterexample. -/
def oC4 : Order := { id := 1 }

/-- Database of the C4 counterexample. -/
def dbC4 : List Order := [oC4]

/-- C4 counterexample: `OrderHandler.Update` applies the transition
Pending → Completed — a pair absent from the §4.1 table — without any
invalid-transition error, modifying the order. -/
theorem update_skips_transition_check :
    oC4.status = OrderStatusPending ∧
      orderUpdate dbC4 1 OrderStatusCompleted 5 =
        .ok [{ oC4 with status := OrderStatusCompleted, updatedAt := 5 }] :=
  ⟨rfl, by rfl⟩

/-- C4 (amended): `FinishLoading` invoked on a non-Loading order fails with
the invalid-transition (bad request) error and writes nothing, but the
generic `OrderHandler.Update` command performs no transition validation:
on any existing order it overwrites `status` with any non-empty requested
string. -/
theorem finishLoading_guarded_update_unchecked (db : List Order) (id : Nat)
    (s : String) (now : Nat) :
    (∀ o, db.find? (fun p => p.id == id) = some o →
      ¬o.status = OrderStatusLoading →
      finishLoading db id now =
        .error (.badRequest "Order is not in loading status")) ∧
    (¬s = "" → ¬db.find? (fun o => o.id == id) = none →
      orderUpdate db id s now =
        .ok (updateFirst db (fun o => o.id == id) (fun o =>
          { o with status := s, updatedAt := now }))) := by
  constructor
  · intro o hfind hs
    unfold finishLoading
    rw [hfind]
    simp only []
    rw [if_pos hs]
  · intro hs hfind
    unfold orderUpdate
    rw [if_neg hfind, if_neg hs]

/-- Pending order for the C4 witness. -/
def oC4W : Order := { id := 2 }

/-- Database of the C4 witness. -/
def dbC4W : List Order := [oC4W]

/-- Witness for the amended C4 theorem at a concrete database. -/
theorem finishLoading_guarded_update_unchecked_witness :
    (dbC4W.find? (fun p => p.id == 2) = some oC4W ∧
      ¬oC4W.status = OrderStatusLoading ∧
      ¬OrderStatusCancelled = "" ∧
      ¬dbC4W.find? (fun o => o.id == 2) = none) ∧
    finishLoading dbC4W 2 9 =
      .error (.badRequest "Order is not in loading status") ∧
    orderUpdate dbC4W 2 OrderStatusCancelled 9 =
      .ok (updateFirst dbC4W (fun o => o.id == 2) (fun o =>
        { o with status := OrderStatusCancelled, updatedAt := 9 })) :=
  ⟨⟨by rfl, by decide, by decide, by decide⟩,
    (finishLoading_guarded_update_unchecked dbC4W 2 OrderStatusCancelled 9).1
      oC4W (by rfl) (by decide),
    (finishLoading_guarded_update_unchecked dbC4W 2 OrderStatusCancelled 9).2
      (by decide) (by decide)⟩

/-! ## C5: cancellation -/

/-- Loading order for the C5 counterexample. -/
def oC5 : Order := { id := 1, status := OrderStatusLoading }

/-- Database of the C5 counterexample. -/
def dbC5 : List Order := [oC5]

/-- C5 counterexample: `Delete` (CancelOrder) invoked on an order with
`status = loading` succeeds and makes it Cancelled, although the claim
says it must fail and leave the status unchanged. -/
theorem delete_cancels_loading :
    oC5.status = OrderStatusLoading ∧
      orderDelete dbC5 1 5 =
        .ok [{ oC5 with status := OrderStatusCancelled, updatedAt := 5 }] :=
  ⟨rfl, by rfl⟩

/-- C5 (amended): `Delete` (CancelOrder) performs no status check at all:
invoked on any existing order — one with status Loading or a terminal
status included — it sets `status = cancelled`; only an unknown id fails,
with a not-found error and no write. -/
theorem delete_unconditional (db : List Order) (id now : Nat) :
    (db.find? (fun o => o.id == id) = none →
      orderDelete db id now = .error (.notFound "Order not found")) ∧
    (¬db.find? (fun o => o.id == id) = none →
      orderDelete db id now =
        .ok (updateFirst db (fun o => o.id == id) (fun o =>
          { o with status := OrderStatusCancelled, updatedAt := now }))) := by
  constructor
  · intro h
    unfold orderDelete
    rw [if_pos h]
  · intro h
    unfold orderDelete
    rw [if_neg h]

/-- Loading order for the C5 witness. -/
def oC5W : Order := { id := 4, status := OrderStatusLoading }

/-- Database of the C5 witness. -/
def dbC5W : List Order := [oC5W]

/-- Witness for the amended C5 theorem at a concrete database: even a
Loading order is cancelled. -/
theorem delete_unconditional_witness :
    (¬dbC5W.find? (fun o => o.id == 4) = none ∧
      oC5W.status = OrderStatusLoading) ∧
    orderDelete dbC5W 4 6 =
      .ok (updateFirst dbC5W (fun o => o.id == 4) (fun o =>
        { o with status := OrderStatusCancelled, updatedAt := 6 })) :=
  ⟨⟨by decide, rfl⟩, (delete_unconditional dbC5W 4 6).2 (by decide)⟩

/-! ## C6: estimated wait -/

/-- Queued order for the C6 counterexample. -/
def oC6 : Order :=
  { id := 1, status := OrderStatusQueued, queueNumber := 1, invoiceToken := "t6" }

/-- Database of the C6 counterexample: one Queued order, free bay. -/
def dbC6 : List Order := [oC6]

/-- C6 counterexample: with a single Queued order and a free bay,
`GetEstimate` — a query endpoint reporting an estimated wait — returns 30
minutes, while `orders_ahead(order) * QueueDurationMinutes` for that
Queued order is 0; so not every query endpoint satisfies the equation. -/
theorem getEstimate_differs_from_orders_ahead :
    oC6.status = OrderStatusQueued ∧
      ordersAhead dbC6 oC6 * QueueDurationMinutes = 0 ∧
      (getEstimate dbC6).estimatedWaitMinutes = 30 :=
  ⟨rfl, by decide, by decide⟩

/-- The queue-status response computed for a Queued order. -/
theorem getQueueStatus_queued {db : List Order} {token : String} {o : Order}
    (htok : ¬token = "")
    (hfind : db.find? (fun p => p.invoiceToken == token) = some o)
    (hq : o.status = OrderStatusQueued) :
    getQueueStatus db token = .ok
      { status := o.status, queueNumber := o.queueNumber,
        estimatedWaitMinutes := some (ordersAhead db o * QueueDurationMinutes),
        ordersAhead := ordersAhead db o,
        currentLoading := o.status == OrderStatusLoading,
        isLoading :=
          (db.find? (fun q => q.status == OrderStatusLoading)).isSome } := by
  unfold getQueueStatus
  rw [if_neg htok, hfind]
  simp only [hq]
  rfl

/-- C6 (amended): for every Queued order found by its token, the client
queue-status endpoint reports exactly
`orders_ahead(order) * QueueDurationMinutes` as the estimated wait, where
`orders_ahead` counts Queued/Loading orders with a strictly smaller
`queue_number`; the same equation holds in the state reached after any
other order is dequeued via `CallNext`.  (The operator `GetEstimate`
endpoint instead reports `count(Queued) * QueueDurationMinutes` — see the
counterexample.) -/
theorem getQueueStatus_wait_equation (db : List Order) (token : String)
    (o : Order) (htok : ¬token = "")
    (hfind : db.find? (fun p => p.invoiceToken == token) = some o)
    (hq : o.status = OrderStatusQueued) :
    (∃ resp, getQueueStatus db token = .ok resp ∧
      resp.ordersAhead = ordersAhead db o ∧
      resp.estimatedWaitMinutes =
        some (ordersAhead db o * QueueDurationMinutes)) ∧
    (∀ db' w now o', callNext db now = .ok (db', w) →
      db'.find? (fun p => p.invoiceToken == token) = some o' →
      o'.status = OrderStatusQueued →
      ∃ resp', getQueueStatus db' token = .ok resp' ∧
        resp'.estimatedWaitMinutes =
          some (ordersAhead db' o' * QueueDurationMinutes)) := by
  constructor
  · exact ⟨_, getQueueStatus_queued htok hfind hq, rfl, rfl⟩
  · intro db' w now o' _ hfind' hq'
    exact ⟨_, getQueueStatus_queued htok hfind' hq', rfl⟩

/-- Queued order (behind) for the C6 witness, found by token. -/
def oC6W : Order :=
  { id := 1, status := OrderStatusQueued, queueNumber := 2, invoiceToken := "w6" }

/-- Queued order (front of the queue) for the C6 witness. -/
def oC6F : Order := { id := 2, status := OrderStatusQueued, queueNumber := 1 }

/-- Database of the C6 witness. -/
def dbC6W : List Order := [oC6W, oC6F]

/-- Post-CallNext database of the C6 witness. -/
def dbC6W' : List Order := [oC6W, callNextPatch 5 oC6F]

/-- Witness for the amended C6 theorem: the equation holds before and after
the order ahead is dequeued via `CallNext`. -/
theorem getQueueStatus_wait_equation_witness :
    (¬("w6" : String) = "" ∧
      dbC6W.find? (fun p => p.invoiceToken == "w6") = some oC6W ∧
      oC6W.status = OrderStatusQueued ∧
      callNext dbC6W 5 = .ok (dbC6W', callNextPatch 5 oC6F) ∧
      dbC6W'.find? (fun p => p.invoiceToken == "w6") = some oC6W) ∧
    (∃ resp, getQueueStatus dbC6W "w6" = .ok resp ∧
      resp.ordersAhead = ordersAhead dbC6W oC6W ∧
      resp.estimatedWaitMinutes =
        some (ordersAhead dbC6W oC6W * QueueDurationMinutes)) ∧
    (∃ resp', getQueueStatus dbC6W' "w6" = .ok resp' ∧
      resp'.estimatedWaitMinutes =
        some (ordersAhead dbC6W' oC6W * QueueDurationMinutes)) :=
  ⟨⟨by decide, by rfl, rfl, by rfl, by rfl⟩,
    (getQueueStatus_wait_equation dbC6W "w6" oC6W (by decide) (by rfl) rfl).1,
    (getQueueStatus_wait_equation dbC6W "w6" oC6W (by decide) (by rfl) rfl).2
      dbC6W' (callNextPatch 5 oC6F) 5 oC6W (by rfl) (by rfl) rfl⟩

/-! ## C7: reject after verify -/

/-- C7: a `RejectPayment` issued after a successful `VerifyPayment` on the
same order fails with the status-precondition (invalid-transition) error,
and the order remains Confirmed/Verified with none of the rejection
metadata (reason, actor, timestamp) written. -/
theorem reject_after_verify (db db' : List Order) (id : Nat)
    (u u' r : String) (t t' : Nat) (o : Order)
    (hfind : db.find? (fun p => p.id == id) = some o)
    (hver : paymentVerify db id u t = .ok db') :
    paymentReject db' id u' r t' =
      .error (.badRequest "Payment is not in pending status") ∧
    ∃ o', db'.find? (fun p => p.id == id) = some o' ∧
      o'.status = OrderStatusConfirmed ∧
      o'.paymentStatus = PaymentStatusVerified ∧
      o'.paymentRejectedAt = o.paymentRejectedAt ∧
      o'.paymentRejectedBy = o.paymentRejectedBy ∧
      o'.paymentRejectReason = o.paymentRejectReason := by
  unfold paymentVerify at hver
  rw [hfind] at hver
  simp only [] at hver
  by_cases hp : o.paymentProof = none
  · rw [if_pos hp] at hver
    simp at hver
  · rw [if_neg hp] at hver
    by_cases hs : o.paymentStatus = PaymentStatusPending
    · rw [if_neg (fun hc => hc hs)] at hver
      injection hver with hver
      subst hver
      have hfetch := find?_updateFirst_same hfind (f := verifyPatch u t)
        (by have hpo := List.find?_some hfind; exact hpo)
      refine ⟨?_, _, hfetch, rfl, rfl, rfl, rfl, rfl⟩
      unfold paymentReject
      rw [hfetch]
      simp only []
      have hne : ¬(verifyPatch u t o).paymentStatus = PaymentStatusPending := by
        show ¬PaymentStatusVerified = PaymentStatusPending
        decide
      rw [if_pos hne]
    · rw [if_pos hs] at hver
      simp at hver

/-- Paid order with a proof attached for the C7 witness. -/
def oC7 : Order :=
  { id := 1, status := OrderStatusPaid,
    paymentProof := some { publicID := "p", url := "u" }, invoiceToken := "t7" }

/-- Database of the C7 witness. -/
def dbC7 : List Order := [oC7]

/-- Post-verify database of the C7 witness. -/
def dbC7' : List Order := [verifyPatch "admin" 3 oC7]

/-- Witness for C7 at a concrete database. -/
theorem reject_after_verify_witness :
    (dbC7.find? (fun p => p.id == 1) = some oC7 ∧
      paymentVerify dbC7 1 "admin" 3 = .ok dbC7') ∧
    (paymentReject dbC7' 1 "op" "blurry" 4 =
       .error (.badRequest "Payment is not in pending status") ∧
     ∃ o', dbC7'.find? (fun p => p.id == 1) = some o' ∧
       o'.status = OrderStatusConfirmed ∧
       o'.paymentStatus = PaymentStatusVerified ∧
       o'.paymentRejectedAt = oC7.paymentRejectedAt ∧
       o'.paymentRejectedBy = oC7.paymentRejectedBy ∧
       o'.paymentRejectReason = oC7.paymentRejectReason) :=
  ⟨⟨by rfl, by rfl⟩,
    reject_after_verify dbC7 dbC7' 1 "admin" "op" "blurry" 3 4 oC7
      (by rfl) (by rfl)⟩

/-! ## C8: re-upload after rejection -/

/-- Paid order with pending payment for the C8 run. -/
def oC8 : Order :=
  { id := 1, status := OrderStatusPaid,
    paymentProof := some { publicID := "p", url := "u" }, invoiceToken := "t8" }

/-- Database of the C8 run. -/
def dbC8 : List Order := [oC8]

/-- The rejected order produced by the C8 run. -/
def oC8' : Order :=
  { oC8 with paymentStatus := PaymentStatusRejected,
             paymentRejectedAt := some 3, paymentRejectedBy := "admin",
             paymentRejectReason := "blurry", updatedAt := 3 }

/-- C8 evaluated at the failing input: rejecting the payment of a Paid
order keeps `status = paid` (the claim's first half holds), but the
subsequent proof upload with the order's token is refused by both upload
endpoints — they require `status = pending`, which a rejected order never
regains — so the claimed re-upload cannot succeed. -/
theorem reject_then_reupload_blocked :
    paymentReject dbC8 1 "admin" "blurry" 3 = .ok [oC8'] ∧
    oC8'.status = OrderStatusPaid ∧
    oC8'.paymentStatus = PaymentStatusRejected ∧
    uploadProof [oC8'] "t8" { publicID := "p2", url := "u2" } 4 =
      .error (.badRequest "Order is not in pending status") ∧
    clientUploadPayment [oC8'] "t8" { publicID := "p2", url := "u2" } 4 =
      .error (.badRequest "Cannot upload payment for this order status") :=
  ⟨by rfl, rfl, rfl, by rfl, by rfl⟩

/-! ## C9: client driver submission gated only on verified payment -/

/-- C9: the client-facing `SubmitDriver` requires only
`payment_status = verified` — the order's status is never inspected, so
any such order (Queued, Loading or Completed included) has its driver
fields overwritten and receives a fresh queue barcode and QR code, its
status untouched. -/
theorem clientSubmitDriver_only_needs_verified (db : List Order)
    (token : String) (req : DriverReq) (bc qr : String) (now : Nat)
    (o : Order)
    (htok : ¬token = "")
    (hname : ¬req.driverName = "") (hphone : ¬req.driverPhone = "")
    (hplate : ¬req.vehiclePlate = "")
    (hfind : db.find? (fun p => p.invoiceToken == token) = some o)
    (hpay : o.paymentStatus = PaymentStatusVerified) :
    clientSubmitDriver db token req bc qr now =
      .ok (updateFirst db (fun p => p.invoiceToken == token)
        (driverPatch req bc qr now)) ∧
    (updateFirst db (fun p => p.invoiceToken == token)
        (driverPatch req bc qr now)).find?
        (fun p => p.invoiceToken == token) =
      some (driverPatch req bc qr now o) ∧
    (driverPatch req bc qr now o).driverName = req.driverName ∧
    (driverPatch req bc qr now o).driverPhone = req.driverPhone ∧
    (driverPatch req bc qr now o).vehiclePlate = req.vehiclePlate ∧
    (driverPatch req bc qr now o).queueBarcode = bc ∧
    (driverPatch req bc qr now o).queueQRCode = qr ∧
    (driverPatch req bc qr now o).status = o.status := by
  refine ⟨?_, ?_, rfl, rfl, rfl, rfl, rfl, rfl⟩
  · unfold clientSubmitDriver
    rw [if_neg htok, if_neg (by simp [hname, hphone, hplate]), hfind]
    simp only []
    rw [if_neg (fun hc => hc hpay)]
  · exact find?_updateFirst_same hfind
      (by have hpo := List.find?_some hfind; exact hpo)

/-- Completed order with verified payment for the C9 witness. -/
def oC9 : Order :=
  { id := 1, status := OrderStatusCompleted,
    paymentStatus := PaymentStatusVerified, invoiceToken := "t9",
    driverName := "old", driverPhone := "op", vehiclePlate := "ov" }

/-- Database of the C9 witness. -/
def dbC9 : List Order := [oC9]

/-- Replacement driver data of the C9 witness. -/
def reqC9 : DriverReq :=
  { driverName := "new", driverPhone := "np", vehiclePlate := "nv" }

/-- Witness for C9 at a concrete database whose order is already
Completed. -/
theorem clientSubmitDriver_only_needs_verified_witness :
    (¬("t9" : String) = "" ∧ ¬reqC9.driverName = "" ∧
      ¬reqC9.driverPhone = "" ∧ ¬reqC9.vehiclePlate = "" ∧
      dbC9.find? (fun p => p.invoiceToken == "t9") = some oC9 ∧
      oC9.paymentStatus = PaymentStatusVerified ∧
      oC9.status = OrderStatusCompleted) ∧
    (clientSubmitDriver dbC9 "t9" reqC9 "nb" "nq" 8 =
       .ok (updateFirst dbC9 (fun p => p.invoiceToken == "t9")
         (driverPatch reqC9 "nb" "nq" 8)) ∧
     (updateFirst dbC9 (fun p => p.invoiceToken == "t9")
         (driverPatch reqC9 "nb" "nq" 8)).find?
         (fun p => p.invoiceToken == "t9") =
       some (driverPatch reqC9 "nb" "nq" 8 oC9) ∧
     (driverPatch reqC9 "nb" "nq" 8 oC9).driverName = reqC9.driverName ∧
     (driverPatch reqC9 "nb" "nq" 8 oC9).driverPhone = reqC9.driverPhone ∧
     (driverPatch reqC9 "nb" "nq" 8 oC9).vehiclePlate = reqC9.vehiclePlate ∧
     (driverPatch reqC9 "nb" "nq" 8 oC9).queueBarcode = "nb" ∧
     (driverPatch reqC9 "nb" "nq" 8 oC9).queueQRCode = "nq" ∧
     (driverPatch reqC9 "nb" "nq" 8 oC9).status = oC9.status) :=
  ⟨⟨by decide, by decide, by decide, by decide, by rfl, rfl, rfl⟩,
    clientSubmitDriver_only_needs_verified dbC9 "t9" reqC9 "nb" "nq" 8 oC9
      (by decide) (by decide) (by decide) (by decide) (by rfl) rfl⟩

/-! ## C10: a barcode admits at most one queue entry -/

/-- C10: a successful `Scan` clears the matched order's `queue_barcode`,
so when the barcode was carried by only that order, a second `Scan` with
the same barcode fails with the not-found error (and, failing, assigns
no queue number and writes nothing). -/
theorem scan_barcode_single_use (db db' : List Order) (b tok tok' : String)
    (today today' now now' n : Nat)
    (hnd : (db.map Order.id).Nodup)
    (huniq : (db.filter (fun o => o.queueBarcode == b)).length ≤ 1)
    (hok : scan db b tok today now = .ok (db', n)) :
    scan db' b tok' today' now' =
      .error (.notFound "Invalid barcode or order not found") := by
  obtain ⟨hb, o, hfind, -, -, hdb'⟩ := scan_ok_inv hok
  have hpo : (o.queueBarcode == b) = true := by
    have hpo' := List.find?_some hfind
    exact hpo'
  obtain ⟨l₁, l₂, rfl, hpre⟩ := find?_split hfind
  have hpreid : ∀ x ∈ l₁, (x.id == o.id) = false := by
    rw [List.map_append, List.map_cons, List.nodup_append] at hnd
    intro x hx
    simp only [beq_eq_false_iff_ne, ne_eq]
    intro he
    have hin : o.id ∈ l₁.map Order.id := by
      rw [← he]
      exact List.mem_map_of_mem _ hx
    exact hnd.2.2 hin (by simp)
  have hupd := @updateFirst_append_of_not l₁ o l₂ _
    (scanPatch n tok today now) hpreid (by simp)
  rw [hupd] at hdb'
  subst hdb'
  have hfl1 : l₁.filter (fun x => x.queueBarcode == b) = [] :=
    List.filter_eq_nil_iff.2 (fun x hx => by simp [hpre x hx])
  have hfl : (l₁ ++ o :: l₂).filter (fun x => x.queueBarcode == b) =
      o :: l₂.filter (fun x => x.queueBarcode == b) := by
    rw [List.filter_append, hfl1]
    simp [hpo]
  rw [hfl] at huniq
  have hl₂ : ∀ x ∈ l₂, ¬(x.queueBarcode == b) = true := by
    have hlen : (l₂.filter (fun x => x.queueBarcode == b)).length = 0 := by
      rw [List.length_cons] at huniq
      omega
    have hnil := List.length_eq_zero.1 hlen
    exact fun x hx => List.filter_eq_nil_iff.1 hnil x hx
  have hnone : (l₁ ++ scanPatch n tok today now o :: l₂).find?
      (fun x => x.queueBarcode == b) = none := by
    rw [List.find?_eq_none]
    intro x hx
    rcases List.mem_append.1 hx with hx1 | hx2
    · simp [hpre x hx1]
    · rcases List.mem_cons.1 hx2 with rfl | hx3
      · intro hc
        have hbe : "" = b := by
          have hred : ((scanPatch n tok today now o).queueBarcode == b) =
              (("" : String) == b) := rfl
          rw [hred] at hc
          exact eq_of_beq hc
        exact hb hbe.symm
      · exact hl₂ x hx3
  unfold scan
  rw [if_neg hb, hnone]

/-- Confirmed order carrying barcode `bb` for the C10 witness. -/
def oC10 : Order :=
  { id := 1, status := OrderStatusConfirmed, driverName := "d",
    driverPhone := "p", vehiclePlate := "v", queueBarcode := "bb" }

/-- Database of the C10 witness. -/
def dbC10 : List Order := [oC10]

/-- Post-scan database of the C10 witness. -/
def dbC10' : List Order := [scanPatch 1 "qt" 7 5 oC10]

/-- Witness for C10 at a concrete database. -/
theorem scan_barcode_single_use_witness :
    ((dbC10.map Order.id).Nodup ∧
      (dbC10.filter (fun o => o.queueBarcode == "bb")).length ≤ 1 ∧
      scan dbC10 "bb" "qt" 7 5 = .ok (dbC10', 1)) ∧
    scan dbC10' "bb" "qt2" 7 6 =
      .error (.notFound "Invalid barcode or order not found") :=
  ⟨⟨by decide, by decide, by rfl⟩,
    scan_barcode_single_use dbC10 dbC10' "bb" "qt" "qt2" 7 7 5 6 1
      (by decide) (by decide) (by rfl)⟩

end LLN
